import Mathlib

/-!
# Verification of the `http-instance` HTTP client wrapper

Shallow embedding of the revisions of `HttpInstance` found in this
repository, and proofs about the behaviour its specification claims.

The repository carries several revisions of the same class:
* `V0` — the earliest revision (free function `_request` with a regex
  leading-token content-type match, `get` only);
* `V1` — the first class revision in `index.ts` (content negotiation in the
  response callback, only `application/json` accepted);
* `V2` — the second class revision in `index.ts` (nested if/else
  negotiation, per-call headers merged into a shallow copy of the stored
  options);
* `V3` — the third class revision in `index.ts` (delegating the exchange to
  the external package `http-instance-request`, classifying the body in
  `bodyToData`);
* `V4` — the revision with `bodyToData` lacking the `text/plain` branch.

JavaScript objects used as header maps are embedded as association lists
with last-write-wins lookup (`hmGet`), which is how property assignment and
`Object.assign` behave; `Object.assign target source` is list append under
that lookup.  Node lowercases incoming response header names, so response
header maps are looked up with the exact lowercase names the code uses.
`Promise` resolution is embedded by recording every `resolve(...)` call of
an execution in order (`ExecTrace.resolutions`): the promise adopts the
first recorded resolution (`observed`), later calls change nothing.  An
exception thrown inside an asynchronous callback (outside the executor's
`try`) is recorded as `ExecTrace.uncaught`.
-/

/-- A JavaScript object holding header names/values: association list,
later entries shadow earlier ones (JS property writes overwrite). -/
def HeaderMap : Type := List (String × String)

instance : DecidableEq HeaderMap := by
  unfold HeaderMap
  infer_instance

instance : Append HeaderMap := ⟨fun a b => List.append a b⟩

/-- `oOr a b` is `a` unless it is `none`, then `b` (first-of). -/
def oOr {α : Type} : Option α → Option α → Option α
  | some x, _ => some x
  | none, b => b

/-- Property lookup on a JS object embedded as a list: the LAST entry for a
key wins, matching JS semantics where later writes overwrite. -/
def hmGet (m : HeaderMap) (k : String) : Option String :=
  hmGo m none
where
  hmGo : List (String × String) → Option String → Option String
    | [], acc => acc
    | p :: t, acc => hmGo t (if p.1 = k then some p.2 else acc)

/-- `Object.assign(target, source)`: every property of `source` is written
onto `target`; under last-write-wins lookup this is list append. -/
def objAssign (target source : HeaderMap) : HeaderMap :=
  List.append target source

theorem oOr_none_right {α : Type} (a : Option α) : oOr a none = a := by
  cases a <;> rfl

theorem hmGet_go_acc (k : String) (m : List (String × String)) (acc : Option String) :
    hmGet.hmGo k m acc = oOr (hmGet.hmGo k m none) acc := by
  induction m generalizing acc with
  | nil => simp [hmGet.hmGo, oOr]
  | cons p t ih =>
    by_cases h : p.1 = k
    · rw [hmGet.hmGo, if_pos h, hmGet.hmGo, if_pos h, ih (some p.2)]
      cases hmGet.hmGo k t none <;> simp [oOr]
    · rw [hmGet.hmGo, if_neg h, hmGet.hmGo, if_neg h]
      exact ih acc

/-- Lookup after `Object.assign`: the source's entry wins, otherwise the
target's remains (last-write-wins merge). -/
theorem hmGet_objAssign (a b : HeaderMap) (k : String) :
    hmGet (objAssign a b) k = oOr (hmGet b k) (hmGet a k) := by
  show hmGet.hmGo k (List.append a b) none = oOr (hmGet.hmGo k b none) (hmGet.hmGo k a none)
  induction a with
  | nil =>
    show hmGet.hmGo k b none = oOr (hmGet.hmGo k b none) (hmGet.hmGo k [] none)
    exact (oOr_none_right _).symm
  | cons p t ih =>
    by_cases h : p.1 = k
    · simp only [List.cons_append, hmGet.hmGo, h, if_pos]
      rw [hmGet_go_acc, hmGet_go_acc k t (some p.2), ih]
      cases hmGet.hmGo k b none <;> cases hmGet.hmGo k t none <;> simp [oOr]
    · simp only [List.cons_append, hmGet.hmGo, h, if_neg, ite_false]
      exact ih

/-- `a.startsWith b` on character lists. -/
def listStartsWith : List Char → List Char → Bool
  | _, [] => true
  | [], _ :: _ => false
  | a :: as, b :: bs => a = b && listStartsWith as bs

/-- JS `String.prototype.includes`: does `pat` occur as a contiguous
substring of `s`? -/
def strContainsL : List Char → List Char → Bool
  | [], pat => pat.isEmpty
  | s@(_ :: t), pat => listStartsWith s pat || strContainsL t pat

/-- JS `s.includes(pat)`. -/
def strContains (s pat : String) : Bool :=
  strContainsL s.data pat.data

/-- Is `c` a lowercase ASCII letter (the regex class `[a-z]`)? -/
def isLowerAlpha (c : Char) : Bool :=
  'a' ≤ c && c ≤ 'z'

/-- A match of `[a-z]+\/[a-z]+` anchored at the head of `cs`: a maximal
nonempty run of lowercase letters, a slash, a maximal nonempty run of
lowercase letters (greedy, as the JS regex engine matches it). -/
def matchTokenAt (cs : List Char) : Option String :=
  let a := cs.takeWhile isLowerAlpha
  if a.isEmpty then none
  else
    match cs.drop a.length with
    | '/' :: rest =>
      let b := rest.takeWhile isLowerAlpha
      if b.isEmpty then none else some (String.mk (a ++ '/' :: b))
    | _ => none

/-- The capture group of `str.match(/(?<contentType>[a-z]+\/[a-z]+).*/)`:
the JS engine tries each start position left to right and returns the
group of the first position where the pattern matches (`.*` always
matches the remainder). -/
def leadingTokenL : List Char → Option String
  | [] => none
  | cs@(_ :: t) => oOr (matchTokenAt cs) (leadingTokenL t)

/-- The extracted leading media-type token of a content-type header, as the
`V0` revision's regex computes it. -/
def leadingToken (s : String) : Option String :=
  leadingTokenL s.data

/-- The JSON data model: what `JSON.parse` produces and `JSON.stringify`
consumes.  Numbers are modelled by their integer part (the claims under
study never inspect a fractional numeric payload). -/
inductive Json : Type
  | null : Json
  | bool (b : Bool) : Json
  | num (n : Int) : Json
  | str (s : String) : Json
  | arr (xs : List Json) : Json
  | obj (kvs : List (String × Json)) : Json

/-- One hex digit (lowercase), for `\u00XX` escapes. -/
def hexDigit (n : Nat) : Char :=
  if n < 10 then Char.ofNat ('0'.toNat + n) else Char.ofNat ('a'.toNat + n - 10)

/-- How `JSON.stringify` escapes one character inside a string literal. -/
def escapeChar (c : Char) : List Char :=
  if c = '"' then ['\\', '"']
  else if c = '\\' then ['\\', '\\']
  else if c = Char.ofNat 10 then ['\\', 'n']
  else if c = Char.ofNat 13 then ['\\', 'r']
  else if c = Char.ofNat 9 then ['\\', 't']
  else if c = Char.ofNat 8 then ['\\', 'b']
  else if c = Char.ofNat 12 then ['\\', 'f']
  else if c.toNat < 32 then
    ['\\', 'u', '0', '0', hexDigit (c.toNat / 16), hexDigit (c.toNat % 16)]
  else [c]

/-- A JSON string literal with its quotes and escapes. -/
def quoteStr (s : String) : String :=
  "\"" ++ String.mk (s.data.foldr (fun c acc => escapeChar c ++ acc) []) ++ "\""

mutual

/-- `JSON.stringify` (no spacing argument): the compact serialization. -/
def Json.stringify : Json → String
  | .null => "null"
  | .bool true => "true"
  | .bool false => "false"
  | .num n => toString n
  | .str s => quoteStr s
  | .arr xs => "[" ++ stringifyItems xs ++ "]"
  | .obj kvs => "\x7b" ++ stringifyMembers kvs ++ "\x7d"

/-- Comma-separated serialization of array items. -/
def stringifyItems : List Json → String
  | [] => ""
  | [x] => Json.stringify x
  | x :: y :: t => Json.stringify x ++ "," ++ stringifyItems (y :: t)

/-- Comma-separated serialization of object members. -/
def stringifyMembers : List (String × Json) → String
  | [] => ""
  | [(k, v)] => quoteStr k ++ ":" ++ Json.stringify v
  | (k, v) :: m :: t => quoteStr k ++ ":" ++ Json.stringify v ++ "," ++ stringifyMembers (m :: t)

end

/-- JSON whitespace. -/
def isJsonWs (c : Char) : Bool :=
  c = ' ' || c = Char.ofNat 9 || c = Char.ofNat 10 || c = Char.ofNat 13

/-- Skip JSON whitespace. -/
def skipWs (cs : List Char) : List Char :=
  cs.dropWhile isJsonWs

/-- Value of one hex digit, for `\uXXXX` escapes: `0`-`9`, `a`-`f` or
`A`-`F` by code point. -/
def hexVal (c : Char) : Option Nat :=
  let n := c.toNat
  if 48 ≤ n ∧ n ≤ 57 then some (n - 48)
  else if 97 ≤ n ∧ n ≤ 102 then some (n - 87)
  else if 65 ≤ n ∧ n ≤ 70 then some (n - 55)
  else none

/-- Decimal digits to a natural number. -/
def digitsToNat (ds : List Char) : Nat :=
  ds.foldl (fun n c => n * 10 + (c.toNat - '0'.toNat)) 0

/-- The body of a JSON string literal, after its opening quote: the decoded
characters and the remainder after the closing quote.  Unescaped control
characters and bad escapes are rejected, as `JSON.parse` rejects them. -/
def parseStrChars : List Char → Option (List Char × List Char)
  | [] => none
  | '"' :: rest => some ([], rest)
  | '\\' :: rest =>
    match rest with
    | '"' :: t => (parseStrChars t).map (fun p => ('"' :: p.1, p.2))
    | '\\' :: t => (parseStrChars t).map (fun p => ('\\' :: p.1, p.2))
    | '/' :: t => (parseStrChars t).map (fun p => ('/' :: p.1, p.2))
    | 'n' :: t => (parseStrChars t).map (fun p => (Char.ofNat 10 :: p.1, p.2))
    | 'r' :: t => (parseStrChars t).map (fun p => (Char.ofNat 13 :: p.1, p.2))
    | 't' :: t => (parseStrChars t).map (fun p => (Char.ofNat 9 :: p.1, p.2))
    | 'b' :: t => (parseStrChars t).map (fun p => (Char.ofNat 8 :: p.1, p.2))
    | 'f' :: t => (parseStrChars t).map (fun p => (Char.ofNat 12 :: p.1, p.2))
    | 'u' :: h1 :: h2 :: h3 :: h4 :: t =>
      match hexVal h1, hexVal h2, hexVal h3, hexVal h4 with
      | some x1, some x2, some x3, some x4 =>
        (parseStrChars t).map (fun p => (Char.ofNat (((x1 * 16 + x2) * 16 + x3) * 16 + x4) :: p.1, p.2))
      | _, _, _, _ => none
    | _ => none
  | c :: rest =>
    if c.toNat < 32 then none
    else (parseStrChars rest).map (fun p => (c :: p.1, p.2))

/-- Optional fraction part of a JSON number: consume `.digits` if present. -/
def parseFracPart : List Char → Option (List Char)
  | '.' :: t =>
    let ds := t.takeWhile Char.isDigit
    if ds.isEmpty then none else some (t.drop ds.length)
  | cs => some cs

/-- Digits of an exponent, after `e`/`E` and an optional sign. -/
def expDigits (t : List Char) : Option (List Char) :=
  let t2 := match t with
    | '+' :: r => r
    | '-' :: r => r
    | _ => t
  let ds := t2.takeWhile Char.isDigit
  if ds.isEmpty then none else some (t2.drop ds.length)

/-- Optional exponent part of a JSON number. -/
def parseExpPart : List Char → Option (List Char)
  | 'e' :: t => expDigits t
  | 'E' :: t => expDigits t
  | cs => some cs

/-- Fraction/exponent tail of a number; the value keeps the integer part
(see `Json.num`). -/
def numTail (neg : Bool) (n : Nat) (rest : List Char) : Option (Json × List Char) :=
  match parseFracPart rest with
  | none => none
  | some r1 =>
    match parseExpPart r1 with
    | none => none
    | some r2 => some (.num (if neg then -(n : Int) else (n : Int)), r2)

/-- A JSON number at the head of the input (`-?(0|[1-9][0-9]*)` with
optional fraction and exponent, as the JSON grammar demands). -/
def parseNumAt (cs : List Char) : Option (Json × List Char) :=
  let p := match cs with
    | '-' :: t => (true, t)
    | _ => (false, cs)
  match p.2 with
  | [] => none
  | c :: t =>
    if c = '0' then
      if (t.head?.map Char.isDigit).getD false then none
      else numTail p.1 0 t
    else if c.isDigit then
      let ds := (c :: t).takeWhile Char.isDigit
      numTail p.1 (digitsToNat ds) ((c :: t).drop ds.length)
    else none

/-- The character the scanner writes as `\x7b`. -/
def openBrace : Char := Char.ofNat 123

/-- The character the scanner writes as `\x7d`. -/
def closeBrace : Char := Char.ofNat 125

mutual

/-- One JSON value at the head of the input (leading whitespace allowed),
with the remainder.  `fuel` bounds the recursion depth; `jsParse` supplies
enough for any input of the given length. -/
def parseVal : Nat → List Char → Option (Json × List Char)
  | 0, _ => none
  | fuel + 1, cs =>
    match skipWs cs with
    | 'n' :: 'u' :: 'l' :: 'l' :: t => some (.null, t)
    | 't' :: 'r' :: 'u' :: 'e' :: t => some (.bool true, t)
    | 'f' :: 'a' :: 'l' :: 's' :: 'e' :: t => some (.bool false, t)
    | '"' :: t => (parseStrChars t).map (fun p => (.str (String.mk p.1), p.2))
    | '[' :: t =>
      match skipWs t with
      | ']' :: r => some (.arr [], r)
      | t2 =>
        match parseItems fuel t2 with
        | some p => some (.arr p.1, p.2)
        | none => none
    | c :: t =>
      if c = openBrace then
        match skipWs t with
        | c2 :: r =>
          if c2 = closeBrace then some (.obj [], r)
          else
            match parseMembers fuel (c2 :: r) with
            | some p => some (.obj p.1, p.2)
            | none => none
        | [] => none
      else parseNumAt (c :: t)
    | [] => none

/-- Array items after the opening bracket (at least one), up to and
including the closing bracket. -/
def parseItems : Nat → List Char → Option (List Json × List Char)
  | 0, _ => none
  | fuel + 1, cs =>
    match parseVal fuel cs with
    | none => none
    | some (x, r) =>
      match skipWs r with
      | ',' :: r2 =>
        match parseItems fuel r2 with
        | some p => some (x :: p.1, p.2)
        | none => none
      | ']' :: r2 => some ([x], r2)
      | _ => none

/-- Object members after the opening brace (at least one), up to and
including the closing brace. -/
def parseMembers : Nat → List Char → Option (List (String × Json) × List Char)
  | 0, _ => none
  | fuel + 1, cs =>
    match skipWs cs with
    | '"' :: t =>
      match parseStrChars t with
      | none => none
      | some (kcs, r) =>
        match skipWs r with
        | ':' :: r2 =>
          match parseVal fuel r2 with
          | none => none
          | some (v, r3) =>
            match skipWs r3 with
            | ',' :: r4 =>
              match parseMembers fuel r4 with
              | some p => some ((String.mk kcs, v) :: p.1, p.2)
              | none => none
            | c :: r4 =>
              if c = closeBrace then some ([(String.mk kcs, v)], r4) else none
            | [] => none
        | _ => none
    | _ => none

end

/-- `JSON.parse`, embedded as a total function: `some` the parsed value on
well-formed input, `none` where the real function throws a parse error. -/
def jsParse (s : String) : Option Json :=
  match parseVal (s.length + 2) s.data with
  | some (j, rest) => if (skipWs rest).isEmpty then some j else none
  | none => none

theorem jsParse_malformed : jsParse "not-json" = none := by rfl

theorem jsParse_object : jsParse "\x7b\"a\":1\x7d" = some (.obj [("a", .num 1)]) := by rfl

/-- An incoming response as the revisions inside `index.ts` see it: Node has
already lowercased the header names; `body` is the concatenation of the
`data` chunks, decoded (`buffer.toString()`). -/
structure ResponseIn : Type where
  status : Nat
  headers : HeaderMap
  body : String

/-- A decoded payload: a parsed JSON value or the body exposed as text. -/
inductive RespData : Type
  | json (j : Json) : RespData
  | text (s : String) : RespData

/-- The success envelope `{status, headers, data?}` the caller receives. -/
structure RespEnvelope : Type where
  status : Nat
  headers : HeaderMap
  data : Option RespData

/-- The errors the in-file revisions construct for `ResultFail`. -/
inductive ErrKind : Type
  | nonSuccessStatus (code : Nat) : ErrKind
  | unknownStatusCode : ErrKind
  | unsupportedContentType : ErrKind

/-- One per-call result: `ResultOk` envelope or `ResultFail` error. -/
inductive Outcome : Type
  | ok (r : RespEnvelope) : Outcome
  | fail (e : ErrKind) : Outcome

/-- What one run of a response handler does: every `resolve(...)` call in
execution order, and whether an exception escaped a callback uncaught
(outside the executor's `try`, after the handler was registered). -/
structure ExecTrace : Type where
  resolutions : List Outcome
  uncaught : Bool

/-- The value the promise settles on: the first `resolve` wins; later ones
change nothing.  `none` means the promise never settles. -/
def observed (t : ExecTrace) : Option Outcome :=
  t.resolutions.head?

/-- The `V1` response callback (`index.ts`, first revision, `request`):
a non-2xx status resolves a failure but execution continues; an absent
`content-type` resolves success without data and then throws a `TypeError`
on the non-null assertion (`contentType!.includes`); a declared type not
containing `application/json` resolves `Unsupported content type`; the
`end` listener always calls `JSON.parse` on the buffered body, whose throw
on malformed input escapes uncaught and resolves nothing. -/
def v1HandleResponse (resp : ResponseIn) : ExecTrace :=
  let statusFail : List Outcome :=
    if resp.status < 200 ∨ 300 ≤ resp.status then [.fail (.nonSuccessStatus resp.status)]
    else []
  match hmGet resp.headers "content-type" with
  | none =>
    { resolutions := statusFail ++ [.ok ⟨resp.status, resp.headers, none⟩], uncaught := true }
  | some ct =>
    let ctFail : List Outcome :=
      if strContains ct "application/json" then [] else [.fail .unsupportedContentType]
    match jsParse resp.body with
    | none => { resolutions := statusFail ++ ctFail, uncaught := true }
    | some j =>
      { resolutions := statusFail ++ ctFail ++ [.ok ⟨resp.status, resp.headers, some (.json j)⟩],
        uncaught := false }

/-- The `V0` response callback (`_request` in the earliest revision): no
status check; an absent `content-type` resolves success without data and
then throws on `contentTypeHeader!.match`; otherwise the leading media-type
token is extracted by regex, anything outside the accepted three resolves
`Unsupported content type`; on `end`, a JSON token parses the body (a parse
throw escapes uncaught), a text token exposes the body text, and any other
token resolves nothing further. -/
def v0HandleResponse (resp : ResponseIn) : ExecTrace :=
  match hmGet resp.headers "content-type" with
  | none =>
    { resolutions := [.ok ⟨resp.status, resp.headers, none⟩], uncaught := true }
  | some cth =>
    let tok := leadingToken cth
    let ctFail : List Outcome :=
      if tok = some "application/json" ∨ tok = some "text/plain" ∨ tok = some "text/html" then []
      else [.fail .unsupportedContentType]
    if tok = some "application/json" then
      match jsParse resp.body with
      | none => { resolutions := ctFail, uncaught := true }
      | some j =>
        { resolutions := ctFail ++ [.ok ⟨resp.status, resp.headers, some (.json j)⟩],
          uncaught := false }
    else if tok = some "text/plain" ∨ tok = some "text/html" then
      { resolutions := ctFail ++ [.ok ⟨resp.status, resp.headers, some (.text resp.body)⟩],
        uncaught := false }
    else
      { resolutions := ctFail, uncaught := false }

/-- The stored `this.options` of the `V1` revision: a headers object plus
whatever top-level keys later `Object.assign` calls write onto it (`get`
writes `method`). -/
structure V1Options : Type where
  headers : HeaderMap
  method : Option String
deriving DecidableEq

/-- The mutable per-instance state of the `V1` revision. -/
structure V1State : Type where
  options : V1Options
  timeout : Nat
deriving DecidableEq

/-- The `V1` constructor: defaults `Accept: application/json` merged under
the user's headers; timeout defaulting to 1000 ms. -/
def v1Construct (userHeaders : Option HeaderMap) (timeout : Option Nat) : V1State :=
  { options := { headers := objAssign [("Accept", "application/json")] (userHeaders.getD []),
                 method := none },
    timeout := timeout.getD 1000 }

/-- `V1.get`: `Object.assign(this.options, {method: 'GET'})` writes the
`method` key onto the INSTANCE's stored options object and passes that same
object to the request.  Returns the state after the call and the options
used for the outgoing request. -/
def v1Get (st : V1State) : V1State × V1Options :=
  let written : V1Options := { st.options with method := some "GET" }
  ({ st with options := written }, written)

/-- The mutable per-instance state of the `V2` revision: the stored default
headers object (`this.options.headers`). -/
structure V2State : Type where
  defaultHeaders : HeaderMap
  timeout : Nat
deriving DecidableEq

/-- The `V2` constructor. -/
def v2Construct (userHeaders : Option HeaderMap) (timeout : Option Nat) : V2State :=
  { defaultHeaders := objAssign [("Accept", "application/json")] (userHeaders.getD []),
    timeout := timeout.getD 1000 }

/-- The outgoing request options of one `V2` call. -/
structure V2Outgoing : Type where
  method : String
  headers : HeaderMap

/-- `V2.get`: `Object.assign({}, this.options, {method})` copies the options
record SHALLOWLY, so `requestOptions.headers` is the very object stored in
the instance; `Object.assign(requestOptions.headers, options.headers)` then
writes the per-call headers through onto the stored default headers.
Returns the state after the call and the outgoing options. -/
def v2Get (st : V2State) (perCall : Option HeaderMap) : V2State × V2Outgoing :=
  match perCall with
  | some h =>
    let merged := objAssign st.defaultHeaders h
    ({ st with defaultHeaders := merged }, { method := "GET", headers := merged })
  | none => (st, { method := "GET", headers := st.defaultHeaders })

/-- The two transports the code can hand the request to. -/
inductive Transport : Type
  | plaintext : Transport
  | encrypted : Transport
deriving DecidableEq

/-- The transport choice written identically in the `V0` and `V1`/`V2`
revisions: `protocol === 'http:' ? http.request : https.request`. -/
def selectTransport (protocol : String) : Transport :=
  if protocol = "http:" then .plaintext else .encrypted

/-- Lowercasing of a header name (`setHeader` stores names
case-insensitively). -/
def lcs (s : String) : String :=
  String.mk (s.data.map Char.toLower)

/-- Lower the keys of a header object, for case-insensitive lookup. -/
def lowerKeys (m : HeaderMap) : HeaderMap :=
  m.map (fun p => (lcs p.1, p.2))

/-- Case-insensitive header lookup (Node's `getHeader`). -/
def hmGetCI (m : HeaderMap) (k : String) : Option String :=
  hmGet (lowerKeys m) (lcs k)

/-- Node's `request.setHeader(k, v)`: any previously stored header whose
name matches case-insensitively is replaced. -/
def setHeaderCI (m : HeaderMap) (k v : String) : HeaderMap :=
  List.append (m.filter (fun p => decide (lcs p.1 ≠ lcs k))) [(k, v)]

theorem hmGet_cons (p : String × String) (l : List (String × String)) (c : String) :
    hmGet (p :: l) c = oOr (hmGet l c) (if p.1 = c then some p.2 else none) := by
  show hmGet.hmGo c (p :: l) none = _
  rw [hmGet.hmGo, hmGet_go_acc]
  rfl

theorem hmGet_lower_filter_ne (m : HeaderMap) (k : String) (c : String) (hc : c ≠ lcs k) :
    hmGet (lowerKeys (m.filter (fun p => decide (lcs p.1 ≠ lcs k)))) c
      = hmGet (lowerKeys m) c := by
  induction m with
  | nil => rfl
  | cons p t ih =>
    by_cases h : lcs p.1 ≠ lcs k
    · rw [show (p :: t).filter (fun p => decide (lcs p.1 ≠ lcs k))
            = p :: t.filter (fun p => decide (lcs p.1 ≠ lcs k)) by
          simp [List.filter, h]]
      show hmGet ((lcs p.1, p.2) :: lowerKeys (t.filter _)) c
        = hmGet ((lcs p.1, p.2) :: lowerKeys t) c
      rw [hmGet_cons, hmGet_cons, ih]
    · rw [show (p :: t).filter (fun p => decide (lcs p.1 ≠ lcs k))
            = t.filter (fun p => decide (lcs p.1 ≠ lcs k)) by
          simp [List.filter, h]]
      rw [ih]
      show hmGet (lowerKeys t) c = hmGet ((lcs p.1, p.2) :: lowerKeys t) c
      rw [hmGet_cons]
      have hpc : ¬ lcs p.1 = c := by
        intro he
        rw [not_not] at h
        exact hc (he ▸ h ▸ rfl)
      rw [if_neg hpc, oOr_none_right]

/-- Case-insensitive lookup after `setHeader`: the set value for that name,
any other name untouched. -/
theorem hmGetCI_setHeaderCI (m : HeaderMap) (k v k' : String) :
    hmGetCI (setHeaderCI m k v) k'
      = if lcs k' = lcs k then some v else hmGetCI m k' := by
  show hmGet (lowerKeys (List.append (m.filter _) [(k, v)])) (lcs k') = _
  rw [show lowerKeys (List.append (m.filter (fun p => decide (lcs p.1 ≠ lcs k))) [(k, v)])
        = List.append (lowerKeys (m.filter (fun p => decide (lcs p.1 ≠ lcs k)))) [(lcs k, v)] by
      simp [lowerKeys]]
  show hmGet (objAssign (lowerKeys (m.filter (fun p => decide (lcs p.1 ≠ lcs k)))) [(lcs k, v)])
      (lcs k') = _
  rw [hmGet_objAssign]
  by_cases h : lcs k' = lcs k
  · rw [if_pos h]
    rw [show hmGet [(lcs k, v)] (lcs k') = some v by
      show hmGet.hmGo (lcs k') [(lcs k, v)] none = some v
      simp [hmGet.hmGo, h.symm]]
    rfl
  · rw [if_neg h]
    rw [show hmGet [(lcs k, v)] (lcs k') = none by
      show hmGet.hmGo (lcs k') [(lcs k, v)] none = none
      simp [hmGet.hmGo]
      intro he
      exact absurd he.symm h]
    show oOr none _ = _
    rw [show oOr none (hmGet (lowerKeys (m.filter (fun p => decide (lcs p.1 ≠ lcs k)))) (lcs k'))
          = hmGet (lowerKeys (m.filter (fun p => decide (lcs p.1 ≠ lcs k)))) (lcs k') from rfl]
    exact hmGet_lower_filter_ne m k (lcs k') (fun he => h (he ▸ rfl))

/-- Thrown JS error values: a `SyntaxError` from `JSON.parse` (recording the
unparseable text) or a generic `Error` such as a transport failure. -/
inductive JsErr : Type
  | parseThrow (source : String) : JsErr
  | errMsg (msg : String) : JsErr
deriving DecidableEq

/-- node-result's result value: `ResultOk` / `ResultFail`. -/
inductive NResult (α : Type) (ε : Type) : Type
  | ok (a : α) : NResult α ε
  | fail (e : ε) : NResult α ε

/-- node-result's `.unwrap()`: the carried value, or THROW the carried
error (embedded as `Except.error`). -/
def NResult.unwrapE {α ε : Type} : NResult α ε → Except ε α
  | .ok a => .ok a
  | .fail e => .error e

/-- What the external transport (`http-instance-request`) hands back on
success, as the repository's `bodyToData` destructures it: status, headers
(lowercased by Node) and the optional body buffer, decoded. -/
structure RequestResponse : Type where
  status : Nat
  headers : HeaderMap
  body : Option String

/-- A request body argument of `post`/`put`: a JS plain object (`typeof
data === 'object'`) or a string. -/
inductive BodyArg : Type
  | jsObj (kvs : List (String × Json)) : BodyArg
  | str (s : String) : BodyArg

/-- What `prepareBody` returns: computed body headers and the serialized
body. -/
structure PrepBody : Type where
  headers : HeaderMap
  body : Option String

/-- `V3`/`V4` `HttpInstance.prepareBody`: a structured body is serialized
with `JSON.stringify` and labelled `content-type: application/json` with
`content-length` the UTF-8 byte length; a string body is labelled
`text/plain`; no body, no headers. -/
def prepareBody : Option BodyArg → PrepBody
  | some (.jsObj kvs) =>
    let body := Json.stringify (.obj kvs)
    { headers := [("content-type", "application/json"),
                  ("content-length", toString body.utf8ByteSize)],
      body := some body }
  | some (.str s) =>
    { headers := [("content-type", "text/plain"),
                  ("content-length", toString s.utf8ByteSize)],
      body := some s }
  | none => { headers := [], body := none }

/-- The final header object of one `V3`/`V4` `post` (or `put`) call:
`Object.assign(preparedHeaders, options?.headers)` lets per-call headers
override the computed body headers, and `prepareUrlAndOptions` then writes
that merge onto the instance's headers object
(`Object.assign(options.headers, headers)`), so it overrides the
construction-time defaults. -/
def v3PostHeaders (defaults : HeaderMap) (data : Option BodyArg)
    (perCall : Option HeaderMap) : HeaderMap :=
  objAssign defaults (objAssign (prepareBody data).headers (perCall.getD []))

/-- The headers of one outgoing `V1` request: the stored options' headers,
then for a structured body `setHeader('Content-Type', 'application/json')`
and `setHeader('Content-Length', byteLength)`. -/
def v1OutgoingHeaders (optHeaders : HeaderMap) (data : Option (List (String × Json))) :
    HeaderMap :=
  match data with
  | some kvs =>
    let s := Json.stringify (.obj kvs)
    setHeaderCI (setHeaderCI optHeaders "Content-Type" "application/json")
      "Content-Length" (toString s.utf8ByteSize)
  | none => optHeaders

/-- `V3`'s `bodyToData`: with a body and a declared content type, a type
containing `application/json` is parsed (a parse failure THROWS, escaping
the synchronous helper), a type containing `html/text` (sic) or
`text/plain` is exposed as text, and any other declared type falls through
to a data-less success envelope. -/
def v3BodyToData (rr : RequestResponse) : Except JsErr RespEnvelope :=
  match rr.body, hmGet rr.headers "content-type" with
  | some b, some ct =>
    if strContains ct "application/json" then
      match jsParse b with
      | some j => .ok ⟨rr.status, rr.headers, some (.json j)⟩
      | none => .error (.parseThrow b)
    else if strContains ct "html/text" then .ok ⟨rr.status, rr.headers, some (.text b)⟩
    else if strContains ct "text/plain" then .ok ⟨rr.status, rr.headers, some (.text b)⟩
    else .ok ⟨rr.status, rr.headers, none⟩
  | some _, none => .ok ⟨rr.status, rr.headers, none⟩
  | none, _ => .ok ⟨rr.status, rr.headers, none⟩

/-- `V4`'s `bodyToData` (the revision outside `index.ts`): like `V3`'s but
WITHOUT the `text/plain` branch — only `application/json` and the
misspelled `html/text` produce a payload. -/
def v4BodyToData (rr : RequestResponse) : Except JsErr RespEnvelope :=
  match rr.body, hmGet rr.headers "content-type" with
  | some b, some ct =>
    if strContains ct "application/json" then
      match jsParse b with
      | some j => .ok ⟨rr.status, rr.headers, some (.json j)⟩
      | none => .error (.parseThrow b)
    else if strContains ct "html/text" then .ok ⟨rr.status, rr.headers, some (.text b)⟩
    else .ok ⟨rr.status, rr.headers, none⟩
  | some _, none => .ok ⟨rr.status, rr.headers, none⟩
  | none, _ => .ok ⟨rr.status, rr.headers, none⟩

/-- One `V3.get` call, given the external transport's result for this
exchange: `(await request(urlAndOptions)).unwrap()` rethrows a transport
failure, so the async method's promise REJECTS (`Except.error`); otherwise
`bodyToData` classifies the response (its parse throw also rejects), and
the envelope is returned as the ok variant. -/
def v3GetCall (transport : NResult RequestResponse JsErr) :
    Except JsErr (NResult RespEnvelope JsErr) :=
  match transport.unwrapE with
  | .error e => .error e
  | .ok rr =>
    match v3BodyToData rr with
    | .error e => .error e
    | .ok env => .ok (.ok env)

/-- One `V4.get` call (same `unwrap` pattern, `V4`'s `bodyToData`). -/
def v4GetCall (transport : NResult RequestResponse JsErr) :
    Except JsErr (NResult RespEnvelope JsErr) :=
  match transport.unwrapE with
  | .error e => .error e
  | .ok rr =>
    match v4BodyToData rr with
    | .error e => .error e
    | .ok env => .ok (.ok env)

/-- C1: the claim says a response declaring `application/json` with an
unparseable body completes with the Failure variant and no exception
escapes.  The code contradicts it: in `V1` the `JSON.parse` throw inside
the `end` listener escapes the executor's `try` uncaught and no `resolve`
ever runs (zero outcomes, promise never settles), and in the `V4` pipeline
the `bodyToData` throw rejects the async method instead of returning the
failure variant. -/
theorem c1_malformed_json_yields_no_failure_outcome :
    (v1HandleResponse ⟨200, [("content-type", "application/json")], "not-json"⟩).resolutions = []
    ∧ (v1HandleResponse ⟨200, [("content-type", "application/json")], "not-json"⟩).uncaught = true
    ∧ v4GetCall (.ok ⟨200, [("content-type", "application/json")], some "not-json"⟩)
        = .error (.parseThrow "not-json") := by
  refine ⟨?_, ?_, ?_⟩ <;> rfl

/-- C2: the claim says the stored configuration is identical before and
after each call.  The code contradicts it: `V1.get` writes `method` onto
the instance's stored options object, and `V2.get` (whose
`Object.assign({}, this.options, ...)` copies only shallowly) writes the
per-call headers through onto the stored default headers, where they
persist. -/
theorem c2_instance_config_mutated_by_calls :
    ((v1Get (v1Construct none none)).1.options.method = some "GET"
      ∧ (v1Construct none none).options.method = none)
    ∧ (hmGet ((v2Get (v2Construct none none) (some [("x-token", "t")])).1.defaultHeaders) "x-token"
          = some "t"
        ∧ hmGet (v2Construct none none).defaultHeaders "x-token" = none) := by
  exact ⟨⟨rfl, rfl⟩, ⟨rfl, rfl⟩⟩

/-- C3: the claim says transport-level errors are delivered as the Failure
variant of the returned result and the call never rejects.  The code
contradicts it in the `V3`/`V4` revisions: `(await request(...)).unwrap()`
rethrows the transport failure, so the async `get` REJECTS with the
transport error instead of resolving with the failure variant. -/
theorem c3_transport_error_rejects_the_call :
    ∀ e : JsErr, v3GetCall (.fail e) = .error e ∧ v4GetCall (.fail e) = .error e := by
  intro e
  exact ⟨rfl, rfl⟩

/-- C4 counterexample: the claim says the encrypted transport is used
exactly for `https` and any other scheme fails with `UnsupportedScheme`.
At scheme `ftp:` the selection ternary hands the call to the encrypted
transport although the scheme is not `https:`, and no `UnsupportedScheme`
failure exists anywhere in the code. -/
theorem c4_counterexample_ftp_gets_encrypted :
    selectTransport "ftp:" = Transport.encrypted ∧ ("ftp:" == "https:") = false := by
  exact ⟨rfl, rfl⟩

/-- C4 amended: the plaintext transport is selected exactly for the
`http:` scheme, and EVERY other scheme — `https:` like `ftp:` — is handed
to the encrypted transport; the code never produces an `UnsupportedScheme`
error. -/
theorem c4_amended_transport_selection :
    ∀ protocol : String,
      (selectTransport protocol = Transport.plaintext ↔ protocol = "http:")
      ∧ (selectTransport protocol = Transport.encrypted ↔ protocol ≠ "http:") := by
  intro protocol
  unfold selectTransport
  by_cases h : protocol = "http:"
  · simp [h]
  · simp [h]

/-- C7 counterexample: the claim says a declared type containing
`text/plain` or `text/html` yields success with the body exposed as text.
In `V3`, a plain `text/html` response (which matches neither the misspelled
`html/text` check nor `text/plain`) succeeds WITHOUT any payload. -/
theorem c7_counterexample_text_html_loses_payload :
    v3BodyToData ⟨200, [("content-type", "text/html")], some "<p>hi</p>"⟩
      = .ok ⟨200, [("content-type", "text/html")], none⟩ := by
  rfl

/-- C7 amended: `V3` exposes the body as text for declared types containing
`text/plain` (or the misspelled `html/text`); `V4` does so only for
`html/text`; `V0` resolves success with the body text when the extracted
leading token is exactly `text/plain` or `text/html`.  A plain `text/html`
declared type in `V3`/`V4` instead succeeds with data absent (see the
counterexample). -/
theorem c7_amended_text_payload :
    (∀ (st : Nat) (hs : HeaderMap) (b ct : String),
      hmGet hs "content-type" = some ct →
      strContains ct "application/json" = false →
      strContains ct "html/text" = false →
      strContains ct "text/plain" = true →
      v3BodyToData ⟨st, hs, some b⟩ = .ok ⟨st, hs, some (.text b)⟩)
    ∧ (∀ (st : Nat) (hs : HeaderMap) (b ct : String),
      hmGet hs "content-type" = some ct →
      strContains ct "application/json" = false →
      strContains ct "html/text" = true →
      v3BodyToData ⟨st, hs, some b⟩ = .ok ⟨st, hs, some (.text b)⟩)
    ∧ (∀ (st : Nat) (hs : HeaderMap) (b ct : String),
      hmGet hs "content-type" = some ct →
      strContains ct "application/json" = false →
      strContains ct "html/text" = true →
      v4BodyToData ⟨st, hs, some b⟩ = .ok ⟨st, hs, some (.text b)⟩)
    ∧ (∀ (st : Nat) (hs : HeaderMap) (b ct : String),
      hmGet hs "content-type" = some ct →
      strContains ct "application/json" = false →
      strContains ct "html/text" = false →
      v4BodyToData ⟨st, hs, some b⟩ = .ok ⟨st, hs, none⟩)
    ∧ (∀ (st : Nat) (hs : HeaderMap) (b ct : String),
      hmGet hs "content-type" = some ct →
      (leadingToken ct = some "text/plain" ∨ leadingToken ct = some "text/html") →
      observed (v0HandleResponse ⟨st, hs, b⟩) = some (.ok ⟨st, hs, some (.text b)⟩)) := by
  refine ⟨?_, ?_, ?_, ?_, ?_⟩
  · intro st hs b ct hct hjson hhtml hplain
    unfold v3BodyToData
    rw [hct]
    simp [hjson, hhtml, hplain]
  · intro st hs b ct hct hjson hhtml
    unfold v3BodyToData
    rw [hct]
    simp [hjson, hhtml]
  · intro st hs b ct hct hjson hhtml
    unfold v4BodyToData
    rw [hct]
    simp [hjson, hhtml]
  · intro st hs b ct hct hjson hhtml
    unfold v4BodyToData
    rw [hct]
    simp [hjson, hhtml]
  · intro st hs b ct hct htok
    unfold v0HandleResponse
    rw [hct]
    have hnj : ¬ leadingToken ct = some "application/json" := by
      rcases htok with h | h <;> rw [h] <;> intro hx <;> exact absurd (Option.some.inj hx) (by decide)
    simp only [observed]
    rcases htok with h | h <;> simp [h]

/-- C7 witness: the amended statement at concrete `text/plain; charset`,
`html/text` and `text/html` responses, for `V3`, `V4` and `V0`. -/
theorem c7_amended_text_payload_witness :
    v3BodyToData ⟨200, [("content-type", "text/plain; charset=utf-8")], some "hello"⟩
        = .ok ⟨200, [("content-type", "text/plain; charset=utf-8")], some (.text "hello")⟩
    ∧ v3BodyToData ⟨200, [("content-type", "html/text")], some "<t>"⟩
        = .ok ⟨200, [("content-type", "html/text")], some (.text "<t>")⟩
    ∧ v4BodyToData ⟨200, [("content-type", "html/text")], some "<p>"⟩
        = .ok ⟨200, [("content-type", "html/text")], some (.text "<p>")⟩
    ∧ v4BodyToData ⟨200, [("content-type", "text/html")], some "<p>x</p>"⟩
        = .ok ⟨200, [("content-type", "text/html")], none⟩
    ∧ observed (v0HandleResponse ⟨200, [("content-type", "text/html")], "page"⟩)
        = some (.ok ⟨200, [("content-type", "text/html")], some (.text "page")⟩) :=
  ⟨c7_amended_text_payload.1 200 [("content-type", "text/plain; charset=utf-8")] "hello"
      "text/plain; charset=utf-8" rfl rfl rfl rfl,
    c7_amended_text_payload.2.1 200 [("content-type", "html/text")] "<t>" "html/text"
      rfl rfl rfl,
    c7_amended_text_payload.2.2.1 200 [("content-type", "html/text")] "<p>" "html/text"
      rfl rfl rfl,
    c7_amended_text_payload.2.2.2.1 200 [("content-type", "text/html")] "<p>x</p>" "text/html"
      rfl rfl rfl,
    c7_amended_text_payload.2.2.2.2 200 [("content-type", "text/html")] "page" "text/html"
      rfl (Or.inr rfl)⟩

/-- C8 counterexample: the claim says EVERY response without a
`content-type` header succeeds.  In `V1` a 404 response without the header
resolves the non-success-status failure first, so the observed outcome is
a failure. -/
theorem c8_counterexample_non2xx_without_content_type :
    observed (v1HandleResponse ⟨404, [], ""⟩) = some (.fail (.nonSuccessStatus 404)) := by
  rfl

/-- C8 amended: a response without a `content-type` header yields the
success envelope with status, headers and no data — in `V1` provided the
status is 2xx (a non-2xx status resolves the status failure first), in
`V0` for any status (it never checks the status); in both of these
revisions the handler then also throws an uncaught `TypeError` from the
non-null assertion on the absent header, after the promise has settled. -/
theorem c8_amended_no_content_type_success :
    (∀ (st : Nat) (hs : HeaderMap) (body : String),
      hmGet hs "content-type" = none → 200 ≤ st → st < 300 →
      observed (v1HandleResponse ⟨st, hs, body⟩) = some (.ok ⟨st, hs, none⟩)
        ∧ (v1HandleResponse ⟨st, hs, body⟩).uncaught = true)
    ∧ (∀ (st : Nat) (hs : HeaderMap) (body : String),
      hmGet hs "content-type" = none →
      observed (v0HandleResponse ⟨st, hs, body⟩) = some (.ok ⟨st, hs, none⟩)
        ∧ (v0HandleResponse ⟨st, hs, body⟩).uncaught = true) := by
  constructor
  · intro st hs body hct h1 h2
    unfold observed v1HandleResponse
    rw [hct]
    have hs1 : ¬ (st < 200 ∨ 300 ≤ st) := by omega
    simp [hs1]
  · intro st hs body hct
    unfold observed v0HandleResponse
    rw [hct]
    exact ⟨rfl, rfl⟩

/-- C8 witness: the amended statement at a concrete 204 response carrying
only an unrelated header. -/
theorem c8_amended_no_content_type_success_witness :
    (observed (v1HandleResponse ⟨204, [("x-request-id", "1")], ""⟩)
        = some (.ok ⟨204, [("x-request-id", "1")], none⟩)
      ∧ (v1HandleResponse ⟨204, [("x-request-id", "1")], ""⟩).uncaught = true)
    ∧ (observed (v0HandleResponse ⟨204, [("x-request-id", "1")], ""⟩)
        = some (.ok ⟨204, [("x-request-id", "1")], none⟩)
      ∧ (v0HandleResponse ⟨204, [("x-request-id", "1")], ""⟩).uncaught = true) :=
  ⟨c8_amended_no_content_type_success.1 204 [("x-request-id", "1")] "" rfl (by omega) (by omega),
    c8_amended_no_content_type_success.2 204 [("x-request-id", "1")] "" rfl⟩

/-- C6 counterexample: the claim says no call yields zero outcomes.  A 2xx
response declaring `application/json` whose body does not parse resolves
NOTHING in `V1` and in `V0` alike: the `JSON.parse` throw in the `end`
listener prevents every `resolve`, and the promise never settles. -/
theorem c6_counterexample_zero_resolutions :
    (v1HandleResponse ⟨200, [("content-type", "application/json")], "not-json"⟩).resolutions = []
    ∧ (v0HandleResponse ⟨200, [("content-type", "application/json")], "not-json"⟩).resolutions
        = [] := by
  exact ⟨rfl, rfl⟩

/-- C6 amended: at most one Outcome takes effect per call — the promise
adopts the first `resolve` and later resolve calls change nothing (the
`observed` embedding) — and the handler resolves at least one Outcome
EXCEPT exactly on the malformed-JSON path: `V1` resolves nothing precisely
for a 2xx response declaring a type containing `application/json` whose
body fails to parse, and `V0` precisely for a response whose extracted
leading token is `application/json` and whose body fails to parse. -/
theorem c6_amended_zero_outcomes_exactly_on_parse_throw :
    (∀ (st : Nat) (hs : HeaderMap) (body : String),
      (v1HandleResponse ⟨st, hs, body⟩).resolutions = []
        ↔ (200 ≤ st ∧ st < 300
            ∧ ∃ ct, hmGet hs "content-type" = some ct
                ∧ strContains ct "application/json" = true
                ∧ jsParse body = none))
    ∧ (∀ (st : Nat) (hs : HeaderMap) (body : String),
      (v0HandleResponse ⟨st, hs, body⟩).resolutions = []
        ↔ (∃ ct, hmGet hs "content-type" = some ct
            ∧ leadingToken ct = some "application/json"
            ∧ jsParse body = none)) := by
  constructor
  · intro st hs body
    unfold v1HandleResponse
    cases hct : hmGet hs "content-type" with
    | none => simp
    | some ct =>
      cases hp : jsParse body with
      | none =>
        constructor
        · intro h
          rw [List.append_eq_nil] at h
          obtain ⟨h1, h2⟩ := h
          have hcond : ¬ (st < 200 ∨ 300 ≤ st) := by
            intro hc
            rw [if_pos hc] at h1
            cases h1
          have hj : strContains ct "application/json" = true := by
            cases hj : strContains ct "application/json" with
            | true => rfl
            | false =>
              rw [hj] at h2
              simp at h2
          exact ⟨by omega, by omega, ct, rfl, hj, rfl⟩
        · rintro ⟨hc1, hc2, c, hcc, hj, -⟩
          obtain rfl : c = ct := (Option.some.inj hcc).symm
          rw [if_neg (by omega : ¬ (st < 200 ∨ 300 ≤ st))]
          simp [hj]
      | some j => simp
  · intro st hs body
    unfold v0HandleResponse
    cases hct : hmGet hs "content-type" with
    | none => simp
    | some cth =>
      by_cases hj : leadingToken cth = some "application/json"
      · cases hp : jsParse body with
        | none => simp [hj]
        | some j => simp [hj]
      · by_cases htext : leadingToken cth = some "text/plain" ∨ leadingToken cth = some "text/html"
        · rcases htext with h | h <;> simp [hj, h]
        · push_neg at htext
          simp [hj, htext.1, htext.2]

/-- C9: a structured (key-value) body with no explicit per-call headers
makes the outgoing request carry `content-type: application/json` and
`content-length` equal to the UTF-8 byte length of the `JSON.stringify`
serialization — in the `V3`/`V4` `prepareBody`+merge pipeline (for any
construction-time defaults) and in `V1`'s `setHeader` calls (case-
insensitively, over any stored option headers). -/
theorem c9_structured_body_content_headers :
    (∀ (kvs : List (String × Json)) (defaults : HeaderMap),
      hmGet (v3PostHeaders defaults (some (.jsObj kvs)) none) "content-type"
          = some "application/json"
        ∧ hmGet (v3PostHeaders defaults (some (.jsObj kvs)) none) "content-length"
          = some (toString (Json.stringify (.obj kvs)).utf8ByteSize))
    ∧ (∀ (kvs : List (String × Json)) (optHeaders : HeaderMap),
      hmGetCI (v1OutgoingHeaders optHeaders (some kvs)) "content-type"
          = some "application/json"
        ∧ hmGetCI (v1OutgoingHeaders optHeaders (some kvs)) "content-length"
          = some (toString (Json.stringify (.obj kvs)).utf8ByteSize)) := by
  constructor
  · intro kvs defaults
    unfold v3PostHeaders
    constructor
    · rw [hmGet_objAssign, hmGet_objAssign]
      rfl
    · rw [hmGet_objAssign, hmGet_objAssign]
      rfl
  · intro kvs optHeaders
    show hmGetCI (setHeaderCI (setHeaderCI optHeaders "Content-Type" "application/json")
          "Content-Length" (toString (Json.stringify (.obj kvs)).utf8ByteSize)) "content-type"
            = some "application/json"
      ∧ hmGetCI (setHeaderCI (setHeaderCI optHeaders "Content-Type" "application/json")
          "Content-Length" (toString (Json.stringify (.obj kvs)).utf8ByteSize)) "content-length"
            = some (toString (Json.stringify (.obj kvs)).utf8ByteSize)
    constructor
    · rw [hmGetCI_setHeaderCI, if_neg (by decide), hmGetCI_setHeaderCI, if_pos (by decide)]
    · rw [hmGetCI_setHeaderCI, if_pos (by decide)]

